import Mathlib

/-!
Verification of the Checkmate GP offline-caching service worker (`src/sw.js`).

The worker's state is the browser cache storage: a list of cache
generations, each a named association list from request URL keys to
captured responses.  The network is modelled as a function from URL to
`Option Response` (`none` = network failure).  The three event handlers
(install, activate, fetch) are embedded as pure functions; the
fire-and-forget cache writes of the fetch handler are returned as
explicit pending-write data applied separately, so that the state at the
moment a response is returned is distinguishable from the state after
the detached write lands.
-/

namespace CheckmateSW

/-- A captured response snapshot (status, body). -/
structure Response where
  status : Nat
  body : String
deriving DecidableEq, Repr

/-- One cache generation: request key → response, keys unique. -/
abbrev Cache := List (String × Response)

/-- The whole cache storage: generation name → generation. -/
abbrev CacheStorage := List (String × Cache)

/-- The network layer: URL → response, `none` on network failure. -/
abbrev Network := String → Option Response

/-- Source: `const CACHE_NAME = 'checkmate-gp-v1';` (sw.js line 1). -/
def CACHE_NAME : String := "checkmate-gp-v1"

/-- Source: `const ASSETS = [...]` (sw.js lines 2-9). -/
def ASSETS : List String :=
  ["./", "./index.html", "./manifest.json",
   "./icons/icon-192.png", "./icons/icon-512.png", "./icons/apple-touch-icon.png"]

/-- Look up a request key in one cache generation (`cache.match`). -/
def cacheLookup : Cache → String → Option Response
  | [], _ => none
  | (k, v) :: rest, key => if k = key then some v else cacheLookup rest key

/-- Operation `cache.put`: overwrite the entry for `key`, or add it. -/
def cachePut : Cache → String → Response → Cache
  | [], key, v => [(key, v)]
  | (k, w) :: rest, key, v =>
      if k = key then (k, v) :: rest else (k, w) :: cachePut rest key v

/-- Look up a generation by name in the cache storage. -/
def storageLookup : CacheStorage → String → Option Cache
  | [], _ => none
  | (n, c) :: rest, name => if n = name then some c else storageLookup rest name

/-- Replace (or add) the generation `name` in the cache storage. -/
def storageSet : CacheStorage → String → Cache → CacheStorage
  | [], name, c => [(name, c)]
  | (n, d) :: rest, name, c =>
      if n = name then (n, c) :: rest else (n, d) :: storageSet rest name c

/-- Operation `caches.open(name)`: the named generation, empty if absent. -/
def cachesOpen (cs : CacheStorage) (name : String) : Cache :=
  (storageLookup cs name).getD []

/-- Operation `caches.match(request)`: search every generation, first hit wins. -/
def cachesMatch : CacheStorage → String → Option Response
  | [], _ => none
  | (_, c) :: rest, key =>
      match cacheLookup c key with
      | some r => some r
      | none => cachesMatch rest key

/-- Operation `caches.keys()`: the names of all existing generations. -/
def cachesKeys (cs : CacheStorage) : List String := cs.map Prod.fst

/-- Fetch every asset of a manifest; fails if any single fetch fails
(the all-or-nothing contract of `cache.addAll`). -/
def fetchAssets (net : Network) : List String → Option (List (String × Response))
  | [] => some []
  | a :: rest =>
      match net a with
      | none => none
      | some r => (fetchAssets net rest).map (fun es => (a, r) :: es)

/-- Store a list of fetched entries into a generation, in order. -/
def putAll (c : Cache) (entries : List (String × Response)) : Cache :=
  entries.foldl (fun acc p => cachePut acc p.1 p.2) c

/-- Operation `cache.addAll(ASSETS)` (sw.js line 15): fetch all manifest assets and
store them; fails entirely if any fetch fails. -/
def addAll (net : Network) (c : Cache) : Option Cache :=
  (fetchAssets net ASSETS).map (putAll c)

/-- The install handler (sw.js lines 12-18): open the current generation
and `addAll` the manifest into it. -/
def install (net : Network) (cs : CacheStorage) : Except Unit CacheStorage :=
  match addAll net (cachesOpen cs CACHE_NAME) with
  | none => Except.error ()
  | some c => Except.ok (storageSet cs CACHE_NAME c)

/-- The activate handler (sw.js lines 21-27): delete every generation
whose name differs from `CACHE_NAME`. -/
def activate (cs : CacheStorage) : CacheStorage :=
  cs.filter (fun p => p.1 = CACHE_NAME)

/-- An intercepted request: URL (the cache key), method, mode, and the
parsed origin and pathname of the URL. -/
structure Request where
  url : String
  method : String
  mode : String
  origin : String
  pathname : String
deriving DecidableEq, Repr

/-- What the fetch handler does with a request. -/
inductive FetchOutcome where
  /-- The handler returned without `respondWith`: pass through untouched. -/
  | passthrough
  /-- The responded promise settles with no response: failure propagates. -/
  | failure
  /-- A response is delivered to the caller. -/
  | response (r : Response)
deriving DecidableEq, Repr

/-- The observable result of one run of the fetch handler: the outcome
delivered to the caller, the cache writes still pending at that moment
(all of them target `CACHE_NAME`), whether any cache entry lookup
happened, and whether the network was called. -/
structure FetchResult where
  outcome : FetchOutcome
  pendingWrites : List (String × Response)
  cacheRead : Bool
  networkUsed : Bool
deriving DecidableEq, Repr

/-- Network-first branch (sw.js lines 39-47): fetch; on success, return
the live response and leave a clone as a pending write; on failure fall
back to `caches.match`. -/
def networkFirst (net : Network) (cs : CacheStorage) (req : Request) : FetchResult :=
  match net req.url with
  | some res => ⟨FetchOutcome.response res, [(req.url, res)], false, true⟩
  | none =>
      match cachesMatch cs req.url with
      | some cached => ⟨FetchOutcome.response cached, [], true, true⟩
      | none => ⟨FetchOutcome.failure, [], true, true⟩

/-- Cache-first branch (sw.js lines 52-61): `caches.match`; on hit return
the cached entry, otherwise fetch and leave a clone as a pending write. -/
def cacheFirst (net : Network) (cs : CacheStorage) (req : Request) : FetchResult :=
  match cachesMatch cs req.url with
  | some cached => ⟨FetchOutcome.response cached, [], true, false⟩
  | none =>
      match net req.url with
      | some res => ⟨FetchOutcome.response res, [(req.url, res)], true, true⟩
      | none => ⟨FetchOutcome.failure, [], true, true⟩

/-- Test of `url.pathname.endsWith('.html')` (sw.js line 38), expressed
as a suffix test on the pathname's character list. -/
def endsWithHtml (p : String) : Bool := ".html".data.isSuffixOf p.data

/-- The fetch handler (sw.js lines 30-62): bypass non-GET and
cross-origin requests, then dispatch navigation/HTML requests
network-first and everything else cache-first. -/
def handleFetch (selfOrigin : String) (net : Network) (cs : CacheStorage)
    (req : Request) : FetchResult :=
  if req.method ≠ "GET" then ⟨FetchOutcome.passthrough, [], false, false⟩
  else if req.origin ≠ selfOrigin then ⟨FetchOutcome.passthrough, [], false, false⟩
  else if req.mode = "navigate" ∨ endsWithHtml req.pathname = true then
    networkFirst net cs req
  else
    cacheFirst net cs req

/-- Apply the pending fire-and-forget writes: each
`caches.open(CACHE_NAME).then(cache => cache.put(...))` lands in the
current generation. -/
def applyPending (cs : CacheStorage) (writes : List (String × Response)) : CacheStorage :=
  writes.foldl
    (fun acc p => storageSet acc CACHE_NAME (cachePut (cachesOpen acc CACHE_NAME) p.1 p.2))
    cs

/-! ### Basic lemmas about the cache primitives -/

theorem cacheLookup_cachePut_self (c : Cache) (k : String) (v : Response) :
    cacheLookup (cachePut c k v) k = some v := by
  induction c with
  | nil => simp [cachePut, cacheLookup]
  | cons p rest ih =>
      obtain ⟨k0, v0⟩ := p
      by_cases h : k0 = k <;> simp [cachePut, cacheLookup, h, ih]

theorem cacheLookup_cachePut_ne (c : Cache) (k key : String) (v : Response)
    (h : key ≠ k) : cacheLookup (cachePut c k v) key = cacheLookup c key := by
  have h2 : ¬k = key := fun hh => h hh.symm
  induction c with
  | nil => simp [cachePut, cacheLookup, h2]
  | cons p rest ih =>
      obtain ⟨k0, v0⟩ := p
      by_cases h0 : k0 = k
      · subst h0
        simp [cachePut, cacheLookup, h2]
      · simp [cachePut, cacheLookup, h0, ih]

theorem cachePut_of_lookup_eq (c : Cache) (k : String) (v : Response)
    (h : cacheLookup c k = some v) : cachePut c k v = c := by
  induction c with
  | nil => simp [cacheLookup] at h
  | cons p rest ih =>
      obtain ⟨k0, v0⟩ := p
      by_cases h0 : k0 = k
      · simp [cacheLookup, h0] at h
        simp [cachePut, h0, h]
      · simp [cacheLookup, h0] at h
        simp [cachePut, h0, ih h]

theorem storageLookup_storageSet_self (cs : CacheStorage) (n : String) (c : Cache) :
    storageLookup (storageSet cs n c) n = some c := by
  induction cs with
  | nil => simp [storageSet, storageLookup]
  | cons p rest ih =>
      obtain ⟨n0, c0⟩ := p
      by_cases h : n0 = n <;> simp [storageSet, storageLookup, h, ih]

theorem storageSet_of_lookup_eq (cs : CacheStorage) (n : String) (c : Cache)
    (h : storageLookup cs n = some c) : storageSet cs n c = cs := by
  induction cs with
  | nil => simp [storageLookup] at h
  | cons p rest ih =>
      obtain ⟨n0, c0⟩ := p
      by_cases h0 : n0 = n
      · simp [storageLookup, h0] at h
        simp [storageSet, h0, h]
      · simp [storageLookup, h0] at h
        simp [storageSet, h0, ih h]

theorem cachesOpen_storageSet_self (cs : CacheStorage) (n : String) (c : Cache) :
    cachesOpen (storageSet cs n c) n = c := by
  simp [cachesOpen, storageLookup_storageSet_self]

theorem putAll_cons (c : Cache) (k : String) (v : Response)
    (es : List (String × Response)) :
    putAll c ((k, v) :: es) = putAll (cachePut c k v) es := rfl

theorem cacheLookup_putAll_of_not_mem (es : List (String × Response)) (c : Cache)
    (key : String) (h : key ∉ es.map Prod.fst) :
    cacheLookup (putAll c es) key = cacheLookup c key := by
  induction es generalizing c with
  | nil => rfl
  | cons p rest ih =>
      obtain ⟨k0, v0⟩ := p
      simp only [List.map_cons, List.mem_cons] at h
      push_neg at h
      rw [putAll_cons, ih _ h.2, cacheLookup_cachePut_ne _ _ _ _ h.1]

theorem cacheLookup_putAll_mem (es : List (String × Response)) (c : Cache)
    (k : String) (v : Response) (hnd : (es.map Prod.fst).Nodup)
    (hmem : (k, v) ∈ es) : cacheLookup (putAll c es) k = some v := by
  induction es generalizing c with
  | nil => cases hmem
  | cons p rest ih =>
      obtain ⟨k0, v0⟩ := p
      simp only [List.map_cons, List.nodup_cons] at hnd
      rcases List.mem_cons.mp hmem with h | h
      · injection h with h1 h2
        subst h1
        subst h2
        rw [putAll_cons, cacheLookup_putAll_of_not_mem _ _ _ hnd.1,
          cacheLookup_cachePut_self]
      · rw [putAll_cons]
        exact ih _ hnd.2 h

theorem putAll_of_lookup (es : List (String × Response)) (c : Cache)
    (h : ∀ p ∈ es, cacheLookup c p.1 = some p.2) : putAll c es = c := by
  induction es with
  | nil => rfl
  | cons p rest ih =>
      obtain ⟨k0, v0⟩ := p
      rw [putAll_cons, cachePut_of_lookup_eq _ _ _ (h (k0, v0) (List.mem_cons_self _ _))]
      exact ih fun q hq => h q (List.mem_cons_of_mem _ hq)

theorem fetchAssets_keys (net : Network) (l : List String)
    (es : List (String × Response)) (h : fetchAssets net l = some es) :
    es.map Prod.fst = l := by
  induction l generalizing es with
  | nil =>
      simp only [fetchAssets, Option.some.injEq] at h
      subst h
      rfl
  | cons a rest ih =>
      simp only [fetchAssets] at h
      cases hna : net a with
      | none => rw [hna] at h; cases h
      | some r =>
          rw [hna] at h
          cases hfa : fetchAssets net rest with
          | none => rw [hfa] at h; cases h
          | some es0 =>
              rw [hfa] at h
              simp only [Option.map, Option.some.injEq] at h
              subst h
              simp [ih es0 hfa]

theorem fetchAssets_of_fail (net : Network) (l : List String) (a : String)
    (hmem : a ∈ l) (hfail : net a = none) : fetchAssets net l = none := by
  induction l with
  | nil => cases hmem
  | cons b rest ih =>
      rcases List.mem_cons.mp hmem with h | h
      · subst h; simp [fetchAssets, hfail]
      · simp only [fetchAssets]
        cases net b with
        | none => rfl
        | some r => simp [ih h]

theorem cachesMatch_none_forall (cs : CacheStorage) (key : String)
    (h : cachesMatch cs key = none) :
    ∀ p ∈ cs, cacheLookup p.2 key = none := by
  induction cs with
  | nil => intro p hp; cases hp
  | cons q rest ih =>
      intro p hp
      obtain ⟨n0, c0⟩ := q
      simp only [cachesMatch] at h
      cases hl : cacheLookup c0 key with
      | some r => rw [hl] at h; cases h
      | none =>
          rw [hl] at h
          rcases List.mem_cons.mp hp with h0 | h0
          · subst h0; exact hl
          · exact ih h p h0

theorem cachesMatch_storageSet_put (cs : CacheStorage) (n key : String)
    (c : Cache) (r : Response)
    (h : ∀ p ∈ cs, cacheLookup p.2 key = none)
    (hc : cacheLookup c key = some r) :
    cachesMatch (storageSet cs n c) key = some r := by
  induction cs with
  | nil => simp [storageSet, cachesMatch, hc]
  | cons q rest ih =>
      obtain ⟨n0, c0⟩ := q
      by_cases h0 : n0 = n
      · simp [storageSet, h0, cachesMatch, hc]
      · have hq : cacheLookup c0 key = none := h (n0, c0) (List.mem_cons_self _ _)
        simp only [storageSet, h0, if_false, cachesMatch, hq]
        exact ih fun p hp => h p (List.mem_cons_of_mem _ hp)

/-! ### Concrete fixtures used by the witnesses -/

/-- A plain successful response. -/
def okResp : Response := ⟨200, "ok"⟩

/-- An error response, as delivered by a live server. -/
def notFoundResp : Response := ⟨404, "Not Found"⟩

/-- A network on which every fetch succeeds. -/
def demoNet : Network := fun _ => some okResp

/-- A fully unavailable network. -/
def demoNetDown : Network := fun _ => none

/-- A network on which exactly one manifest asset fails to fetch. -/
def demoNetBad : Network := fun u => if u = "./manifest.json" then none else some okResp

/-- A network that answers every request with a 404 response. -/
def demoNet404 : Network := fun _ => some notFoundResp

/-- The agent's own origin in the demo scenarios. -/
def demoOrigin : String := "https://app.example"

/-- A same-origin GET navigation request for the app page. -/
def navReq : Request :=
  ⟨"https://app.example/index.html", "GET", "navigate", "https://app.example", "/index.html"⟩

/-- A same-origin GET request for a static icon asset. -/
def pngReq : Request :=
  ⟨"https://app.example/icons/icon-192.png", "GET", "no-cors", "https://app.example",
   "/icons/icon-192.png"⟩

/-- A same-origin POST request (bypassed by the handler). -/
def postReq : Request :=
  ⟨"https://app.example/api", "POST", "cors", "https://app.example", "/api"⟩

/-- The storage produced by a first install over an empty storage on
`demoNet`. -/
def demoInstalled : CacheStorage :=
  [(CACHE_NAME, ASSETS.map (fun a => (a, okResp)))]

/-- A storage whose only entry for the icon lives in a stale generation. -/
def staleStorage : CacheStorage :=
  [("checkmate-gp-v0", [("https://app.example/icons/icon-192.png", okResp)])]

/-- A same-origin GET request for an HTML page, not in navigation mode. -/
def htmlReq : Request :=
  ⟨"https://app.example/about.html", "GET", "no-cors", "https://app.example",
   "/about.html"⟩

/-- A storage whose only entry for the HTML page lives in a stale
generation. -/
def staleHtmlStorage : CacheStorage :=
  [("checkmate-gp-v0", [("https://app.example/about.html", okResp)])]

/-! ### The claims -/

/-- C4: for every request whose method is not GET or whose origin differs
from the agent's own origin, the fetch handler performs no interception:
no response, no cache read, no cache write, no network use. -/
theorem bypass_non_get_or_cross_origin (so : String) (net : Network)
    (cs : CacheStorage) (req : Request)
    (h : req.method ≠ "GET" ∨ req.origin ≠ so) :
    handleFetch so net cs req = ⟨FetchOutcome.passthrough, [], false, false⟩ := by
  rcases h with h | h <;> simp [handleFetch, h]

/-- C4 witness: a same-origin POST request passes through untouched. -/
theorem bypass_non_get_or_cross_origin_witness :
    handleFetch demoOrigin demoNet [] postReq
      = ⟨FetchOutcome.passthrough, [], false, false⟩ :=
  bypass_non_get_or_cross_origin demoOrigin demoNet [] postReq (Or.inl (by decide))

/-- C5: every intercepted same-origin GET request is dispatched
network-first exactly when its mode is `navigate` or its pathname ends in
`.html`, and cache-first otherwise. -/
theorem fetch_classification (so : String) (net : Network) (cs : CacheStorage)
    (req : Request) (hget : req.method = "GET") (horig : req.origin = so) :
    handleFetch so net cs req =
      if req.mode = "navigate" ∨ endsWithHtml req.pathname = true then
        networkFirst net cs req
      else
        cacheFirst net cs req := by
  simp [handleFetch, hget, horig]

/-- C5 witness: the navigation request is dispatched network-first. -/
theorem fetch_classification_witness :
    handleFetch demoOrigin demoNet [] navReq =
      if navReq.mode = "navigate" ∨ endsWithHtml navReq.pathname = true then
        networkFirst demoNet [] navReq
      else
        cacheFirst demoNet [] navReq :=
  fetch_classification demoOrigin demoNet [] navReq rfl rfl

/-- C2: in either request class, when the network fetch fails and the
cache holds no entry for the request key, the fetch handler yields a
propagated failure rather than a response. -/
theorem total_unavailability_propagates (so : String) (net : Network)
    (cs : CacheStorage) (req : Request)
    (hget : req.method = "GET") (horig : req.origin = so)
    (hnet : net req.url = none) (hmiss : cachesMatch cs req.url = none) :
    (handleFetch so net cs req).outcome = FetchOutcome.failure := by
  by_cases hcl : req.mode = "navigate" ∨ endsWithHtml req.pathname = true
  · simp [handleFetch, hget, horig, hcl, networkFirst, hnet, hmiss]
  · simp [handleFetch, hget, horig, hcl, cacheFirst, hnet, hmiss]

/-- C2 witness: with the network down and an empty cache, both the
navigation request and the static request propagate the failure. -/
theorem total_unavailability_propagates_witness :
    (handleFetch demoOrigin demoNetDown [] navReq).outcome = FetchOutcome.failure ∧
    (handleFetch demoOrigin demoNetDown [] pngReq).outcome = FetchOutcome.failure :=
  ⟨total_unavailability_propagates demoOrigin demoNetDown [] navReq rfl rfl rfl rfl,
   total_unavailability_propagates demoOrigin demoNetDown [] pngReq rfl rfl rfl rfl⟩

/-- C6: a static-class request whose key has a cached entry is answered
with that entry directly, with no network call and no pending cache
write, and repeating the identical request after the (empty) pending
writes land returns the identical result. -/
theorem cache_first_hit_no_network (so : String) (net : Network)
    (cs : CacheStorage) (req : Request) (r : Response)
    (hget : req.method = "GET") (horig : req.origin = so)
    (hmode : req.mode ≠ "navigate") (hhtml : endsWithHtml req.pathname = false)
    (hcached : cachesMatch cs req.url = some r) :
    handleFetch so net cs req = ⟨FetchOutcome.response r, [], true, false⟩ ∧
    applyPending cs (handleFetch so net cs req).pendingWrites = cs ∧
    handleFetch so net (applyPending cs (handleFetch so net cs req).pendingWrites) req
      = handleFetch so net cs req := by
  have h1 : handleFetch so net cs req = ⟨FetchOutcome.response r, [], true, false⟩ := by
    simp [handleFetch, hget, horig, hmode, hhtml, cacheFirst, hcached]
  have h2 : applyPending cs (handleFetch so net cs req).pendingWrites = cs := by
    rw [h1]
    rfl
  refine ⟨h1, h2, ?_⟩
  rw [h2]

/-- C6 witness: the icon request against a cache already holding it is
served from the cache with no network use, idempotently. -/
theorem cache_first_hit_no_network_witness :
    handleFetch demoOrigin demoNetDown staleStorage pngReq
      = ⟨FetchOutcome.response okResp, [], true, false⟩ :=
  (cache_first_hit_no_network demoOrigin demoNetDown staleStorage pngReq okResp
    rfl rfl (by decide) (by decide) rfl).1

/-- C3: activate deletes exactly the stale generations: a generation name
survives activation iff it existed before and equals `CACHE_NAME`; in
particular from generations {v0, v1} only v1 remains. -/
theorem activate_deletes_stale (cs : CacheStorage) :
    (∀ name, name ∈ cachesKeys (activate cs) ↔
      name ∈ cachesKeys cs ∧ name = CACHE_NAME) ∧
    activate [("checkmate-gp-v0", ([] : Cache)), (CACHE_NAME, ([] : Cache))]
      = [(CACHE_NAME, ([] : Cache))] := by
  refine ⟨fun name => ?_, by rfl⟩
  simp only [activate, cachesKeys, List.mem_map, List.mem_filter]
  constructor
  · rintro ⟨p, ⟨hp, hcur⟩, rfl⟩
    exact ⟨⟨p, hp, rfl⟩, by simpa using hcur⟩
  · rintro ⟨⟨p, hp, rfl⟩, hcur⟩
    exact ⟨p, ⟨hp, by simpa using hcur⟩, rfl⟩

/-- C1: install is all-or-nothing: after a successful install every
manifest key is present in the current generation, and a failing fetch of
any single manifest asset fails the whole install. -/
theorem install_all_or_nothing (net : Network) (cs : CacheStorage) :
    (∀ cs1, install net cs = Except.ok cs1 →
      ∀ a ∈ ASSETS, ∃ r, cacheLookup (cachesOpen cs1 CACHE_NAME) a = some r) ∧
    (∀ a ∈ ASSETS, net a = none → install net cs = Except.error ()) := by
  constructor
  · intro cs1 hok a ha
    unfold install at hok
    cases hfa : addAll net (cachesOpen cs CACHE_NAME) with
    | none => rw [hfa] at hok; cases hok
    | some c =>
        rw [hfa] at hok
        simp only [Except.ok.injEq] at hok
        subst hok
        unfold addAll at hfa
        cases hes : fetchAssets net ASSETS with
        | none => rw [hes] at hfa; cases hfa
        | some es =>
            rw [hes] at hfa
            simp only [Option.map, Option.some.injEq] at hfa
            subst hfa
            rw [cachesOpen_storageSet_self]
            have hkeys : es.map Prod.fst = ASSETS := fetchAssets_keys net ASSETS es hes
            have hmem : a ∈ es.map Prod.fst := hkeys ▸ ha
            obtain ⟨⟨a0, r⟩, hpe, hfst⟩ := List.mem_map.mp hmem
            subst hfst
            exact ⟨r, cacheLookup_putAll_mem es _ a0 r (by rw [hkeys]; decide) hpe⟩
  · intro a ha hfail
    unfold install addAll
    rw [fetchAssets_of_fail net ASSETS a ha hfail]
    rfl

/-- C1 witness: a fresh install on an all-up network stores every
manifest key, and an install on a network failing one asset errors. -/
theorem install_all_or_nothing_witness :
    (∃ r, cacheLookup (cachesOpen demoInstalled CACHE_NAME) "./index.html" = some r) ∧
    install demoNetBad [] = Except.error () :=
  ⟨(install_all_or_nothing demoNet []).1 demoInstalled rfl "./index.html" (by decide),
   (install_all_or_nothing demoNetBad []).2 "./manifest.json" (by decide) rfl⟩

/-- Helper: applying a single pending write opens the current generation
and puts the entry there. -/
theorem applyPending_single (cs : CacheStorage) (k : String) (r : Response) :
    applyPending cs [(k, r)]
      = storageSet cs CACHE_NAME (cachePut (cachesOpen cs CACHE_NAME) k r) := rfl

/-- Helper: whenever the network fetch inside the fetch handler resolves
(navigation class, or static class on a cache miss), the live response is
delivered and one pending write of its clone is left behind. -/
theorem handleFetch_success (so : String) (net : Network) (cs : CacheStorage)
    (req : Request) (r : Response)
    (hget : req.method = "GET") (horig : req.origin = so)
    (hclass : (req.mode = "navigate" ∨ endsWithHtml req.pathname = true) ∨
      cachesMatch cs req.url = none)
    (hnet : net req.url = some r) :
    (handleFetch so net cs req).outcome = FetchOutcome.response r ∧
    (handleFetch so net cs req).pendingWrites = [(req.url, r)] := by
  by_cases hcl : req.mode = "navigate" ∨ endsWithHtml req.pathname = true
  · have hmain : handleFetch so net cs req
        = ⟨FetchOutcome.response r, [(req.url, r)], false, true⟩ := by
      simp [handleFetch, hget, horig, hcl, networkFirst, hnet]
    rw [hmain]
    exact ⟨rfl, rfl⟩
  · have hmiss : cachesMatch cs req.url = none := by
      rcases hclass with h | h
      · exact absurd h hcl
      · exact h
    have hmain : handleFetch so net cs req
        = ⟨FetchOutcome.response r, [(req.url, r)], true, true⟩ := by
      simp [handleFetch, hget, horig, hcl, cacheFirst, hmiss, hnet]
    rw [hmain]
    exact ⟨rfl, rfl⟩

/-- C7: on a successful network fetch in either request class the live
response is returned to the caller with the cache write still pending as
detached work; only applying the pending write makes the entry visible in
the current generation. -/
theorem fire_and_forget_write (so : String) (net : Network) (cs : CacheStorage)
    (req : Request) (r : Response)
    (hget : req.method = "GET") (horig : req.origin = so)
    (hclass : (req.mode = "navigate" ∨ endsWithHtml req.pathname = true) ∨
      cachesMatch cs req.url = none)
    (hnet : net req.url = some r) :
    (handleFetch so net cs req).outcome = FetchOutcome.response r ∧
    (handleFetch so net cs req).pendingWrites = [(req.url, r)] ∧
    cacheLookup
      (cachesOpen (applyPending cs (handleFetch so net cs req).pendingWrites) CACHE_NAME)
      req.url = some r := by
  obtain ⟨h1, h2⟩ := handleFetch_success so net cs req r hget horig hclass hnet
  refine ⟨h1, h2, ?_⟩
  rw [h2, applyPending_single, cachesOpen_storageSet_self, cacheLookup_cachePut_self]

/-- C7 witness: a navigation fetch on a live network returns the network
response with its cache write pending, visible only after it lands. -/
theorem fire_and_forget_write_witness :
    (handleFetch demoOrigin demoNet [] navReq).outcome = FetchOutcome.response okResp ∧
    (handleFetch demoOrigin demoNet [] navReq).pendingWrites = [(navReq.url, okResp)] ∧
    cacheLookup
      (cachesOpen (applyPending [] (handleFetch demoOrigin demoNet [] navReq).pendingWrites)
        CACHE_NAME) navReq.url = some okResp :=
  fire_and_forget_write demoOrigin demoNet [] navReq okResp rfl rfl
    (Or.inl (Or.inl rfl)) rfl

/-- C8: install is idempotent: a second install with the same network
over the state a successful install produced succeeds and leaves the
state exactly as it was. -/
theorem install_idempotent (net : Network) (cs cs1 : CacheStorage)
    (h : install net cs = Except.ok cs1) : install net cs1 = Except.ok cs1 := by
  unfold install at h
  cases hfa : addAll net (cachesOpen cs CACHE_NAME) with
  | none => rw [hfa] at h; cases h
  | some c =>
      rw [hfa] at h
      simp only [Except.ok.injEq] at h
      subst h
      unfold addAll at hfa
      cases hes : fetchAssets net ASSETS with
      | none => rw [hes] at hfa; cases hfa
      | some es =>
          rw [hes] at hfa
          simp only [Option.map, Option.some.injEq] at hfa
          subst hfa
          have hkeys : es.map Prod.fst = ASSETS := fetchAssets_keys net ASSETS es hes
          have hnd : (es.map Prod.fst).Nodup := by rw [hkeys]; decide
          have hput : putAll (putAll (cachesOpen cs CACHE_NAME) es) es
              = putAll (cachesOpen cs CACHE_NAME) es :=
            putAll_of_lookup es _
              (fun p hp => cacheLookup_putAll_mem es _ p.1 p.2 hnd hp)
          unfold install addAll
          rw [cachesOpen_storageSet_self, hes]
          simp only [Option.map]
          rw [hput,
            storageSet_of_lookup_eq _ _ _ (storageLookup_storageSet_self cs CACHE_NAME _)]

/-- C8 witness: re-installing over the already-installed demo state
returns that state unchanged. -/
theorem install_idempotent_witness :
    install demoNet demoInstalled = Except.ok demoInstalled :=
  install_idempotent demoNet [] demoInstalled rfl

/-- C9: both fetch-handler cache lookups go through `caches.match`, which
searches every existing generation: an entry living only in a stale
generation (absent from the current one) is served, by the navigation
fallback and by the static cache-first lookup alike. -/
theorem stale_generation_lookup (so : String) (net : Network) (cs : CacheStorage)
    (req : Request) (r : Response)
    (hget : req.method = "GET") (horig : req.origin = so)
    (hcur : cacheLookup (cachesOpen cs CACHE_NAME) req.url = none)
    (hstale : cachesMatch cs req.url = some r) :
    ((req.mode = "navigate" ∨ endsWithHtml req.pathname = true) → net req.url = none →
      (handleFetch so net cs req).outcome = FetchOutcome.response r) ∧
    (req.mode ≠ "navigate" → endsWithHtml req.pathname = false →
      handleFetch so net cs req = ⟨FetchOutcome.response r, [], true, false⟩) := by
  constructor
  · intro hcl hnet
    simp [handleFetch, hget, horig, hcl, networkFirst, hnet, hstale]
  · intro hmode hhtml
    simp [handleFetch, hget, horig, hmode, hhtml, cacheFirst, hstale]

/-- C9 witness: with the network down, a non-navigation HTML request whose
entry lives only in the stale v0 generation is still answered from it. -/
theorem stale_generation_lookup_witness :
    (handleFetch demoOrigin demoNetDown staleHtmlStorage htmlReq).outcome
      = FetchOutcome.response okResp :=
  (stale_generation_lookup demoOrigin demoNetDown staleHtmlStorage htmlReq okResp
    rfl rfl rfl rfl).1 (Or.inr (by decide)) rfl

/-- Helper: a same-origin GET request that is neither a navigation nor an
HTML path is dispatched to the cache-first branch. -/
theorem handleFetch_static (so : String) (net : Network) (cs : CacheStorage)
    (req : Request) (hget : req.method = "GET") (horig : req.origin = so)
    (hmode : req.mode ≠ "navigate") (hhtml : endsWithHtml req.pathname = false) :
    handleFetch so net cs req = cacheFirst net cs req := by
  simp [handleFetch, hget, horig, hmode, hhtml]

/-- C10: a resolved network response is cached with no status check: any
response, error statuses such as 404 included, becomes the pending write,
lands in the current generation, and is then served to a later static
request for the same key without touching the network. -/
theorem unchecked_response_caching (so : String) (net : Network) (cs : CacheStorage)
    (req : Request) (r : Response)
    (hget : req.method = "GET") (horig : req.origin = so)
    (hclass : (req.mode = "navigate" ∨ endsWithHtml req.pathname = true) ∨
      cachesMatch cs req.url = none)
    (hnet : net req.url = some r) :
    (handleFetch so net cs req).pendingWrites = [(req.url, r)] ∧
    (cachesMatch cs req.url = none →
      cachesMatch (applyPending cs (handleFetch so net cs req).pendingWrites) req.url
        = some r) ∧
    (cachesMatch cs req.url = none → ∀ (net2 : Network) (req2 : Request),
      req2.url = req.url → req2.method = "GET" → req2.origin = so →
      req2.mode ≠ "navigate" → endsWithHtml req2.pathname = false →
      handleFetch so net2 (applyPending cs (handleFetch so net cs req).pendingWrites) req2
        = ⟨FetchOutcome.response r, [], true, false⟩) := by
  obtain ⟨h1, h2⟩ := handleFetch_success so net cs req r hget horig hclass hnet
  have hafter : ∀ hmiss : cachesMatch cs req.url = none,
      cachesMatch (applyPending cs (handleFetch so net cs req).pendingWrites) req.url
        = some r := by
    intro hmiss
    rw [h2, applyPending_single]
    exact cachesMatch_storageSet_put cs CACHE_NAME req.url _ r
      (cachesMatch_none_forall cs req.url hmiss) (cacheLookup_cachePut_self ..)
  refine ⟨h2, hafter, ?_⟩
  intro hmiss net2 req2 hurl hget2 horig2 hmode2 hhtml2
  have hm2 : cachesMatch (applyPending cs (handleFetch so net cs req).pendingWrites) req2.url
      = some r := by rw [hurl]; exact hafter hmiss
  rw [handleFetch_static so net2 _ req2 hget2 horig2 hmode2 hhtml2]
  simp [cacheFirst, hm2]

/-- C10 witness: a 404 network response for the icon is cached and then
served from cache to the identical request with the network down. -/
theorem unchecked_response_caching_witness :
    handleFetch demoOrigin demoNetDown
      (applyPending [] (handleFetch demoOrigin demoNet404 [] pngReq).pendingWrites) pngReq
      = ⟨FetchOutcome.response notFoundResp, [], true, false⟩ :=
  (unchecked_response_caching demoOrigin demoNet404 [] pngReq notFoundResp rfl rfl
    (Or.inr rfl) rfl).2.2 rfl demoNetDown pngReq rfl rfl rfl (by decide) (by decide)

end CheckmateSW
